import Mathlib

/-
Verification of the RadCam Spy telemetry acquisition pipeline
(src/app/main.py) via a shallow embedding in Lean 4.

Modelling conventions:
- Python dicts with string keys are embedded as association lists
  `List (String × α)` with first-match lookup (`getv`), `.get(k, d)` as
  `getvD`, and in-place assignment `d[k] = v` as `setv` (replace the value
  at the first occurrence of the key, else append, mirroring insertion
  order of Python dicts).
- Python `str.split()` / `str.splitlines()` / `int(...)` are embedded as
  `pySplit` / `pySplitLines` / `pyInt?` on the character list.
- `re.search` over the fixed patterns of the source is embedded as a
  left-to-right scan (`searchKeyInt`) for the literal key followed by one
  or more whitespace characters and an optionally signed digit run.
- Python functions that can raise are embedded as `Except String`;
  functions that cannot raise keep plain result types.
- Python `round(x, 1)` on floats is modelled as exact rational
  round-half-to-even at one decimal (`round1`).
-/

/-- Embedding of Python whitespace characters recognised by `str.split()`. -/
def pyIsSpace (c : Char) : Bool :=
  c == ' ' || c == '\t' || c == '\n' || c == '\r' || c == '\x0b' || c == '\x0c'

/-- Accumulator worker for `pySplit`: splits on whitespace runs, dropping empties. -/
def splitWsAux : List Char → List Char → List (List Char)
  | [], acc => if acc.isEmpty then [] else [acc.reverse]
  | c :: rest, acc =>
    if pyIsSpace c then
      (if acc.isEmpty then splitWsAux rest [] else acc.reverse :: splitWsAux rest [])
    else splitWsAux rest (c :: acc)

/-- Embedding of Python `str.split()` with no arguments. -/
def pySplit (s : String) : List String :=
  (splitWsAux s.data []).map (fun cs => String.mk cs)

/-- Accumulator worker for `pySplitLines`: line breaks at newline or carriage return. -/
def splitLinesAux : List Char → List Char → List (List Char)
  | [], acc => if acc.isEmpty then [] else [acc.reverse]
  | '\x0d' :: '\n' :: rest, acc => acc.reverse :: splitLinesAux rest []
  | '\n' :: rest, acc => acc.reverse :: splitLinesAux rest []
  | '\x0d' :: rest, acc => acc.reverse :: splitLinesAux rest []
  | c :: rest, acc => splitLinesAux rest (c :: acc)

/-- Embedding of Python `str.splitlines()`. -/
def pySplitLines (s : String) : List String :=
  (splitLinesAux s.data []).map (fun cs => String.mk cs)

/-- Numeric value of a digit run. -/
def digitsToNat (ds : List Char) : ℕ :=
  ds.foldl (fun a c => a * 10 + (c.toNat - 48)) 0

/-- Split a character list at underscores (used by `pyInt?` for Python's
digit-group underscores). -/
def splitSepAux : List Char → List Char → List (List Char)
  | [], acc => [acc.reverse]
  | c :: rest, acc =>
    if c = '_' then acc.reverse :: splitSepAux rest []
    else splitSepAux rest (c :: acc)

/-- Unsigned core of `pyInt?`: a nonempty body of digits, possibly in groups
separated by single underscores. -/
def pyIntCore (body : List Char) : Option ℕ :=
  if body.isEmpty then none
  else
    if (splitSepAux body []).all (fun ch => !ch.isEmpty && ch.all Char.isDigit) then
      some (digitsToNat ((splitSepAux body []).flatten))
    else none

/-- Embedding of Python `int(tok)` on a whitespace-free token: optional sign,
then digits (with Python's underscore digit grouping); `none` models the
ValueError raised on a malformed token. -/
def pyInt? (s : String) : Option ℤ :=
  match s.data with
  | '-' :: rest => (pyIntCore rest).map (fun n => -(n : ℤ))
  | '+' :: rest => (pyIntCore rest).map (fun n => (n : ℤ))
  | cs => (pyIntCore cs).map (fun n => (n : ℤ))

/-- Drop a literal character-list prefix, or fail. -/
def dropPref : List Char → List Char → Option (List Char)
  | [], cs => some cs
  | _ :: _, [] => none
  | k :: ks, c :: cs => if k = c then dropPref ks cs else none

/-- Embedding of Python `str.startswith`. -/
def strStarts (s pre : String) : Bool := (dropPref pre.data s.data).isSome

/-- Fuelled worker for `pyReplace`; the fuel is the input length, which
bounds the number of steps since a nonempty pattern always consumes at
least one character. -/
def replaceAux (pat sub : List Char) : ℕ → List Char → List Char
  | 0, cs => cs
  | _ + 1, [] => []
  | n + 1, c :: rest =>
    match dropPref pat (c :: rest) with
    | some r => sub ++ replaceAux pat sub n r
    | none => c :: replaceAux pat sub n rest

/-- Embedding of Python `str.replace` for a nonempty pattern (used by
`parse_pm` to rename `name.replace("_cur_", "_")`). -/
def pyReplace (s pat sub : String) : String :=
  String.mk (replaceAux pat.data sub.data s.data.length s.data)

/-- Embedding of Python `str.lower()` on ASCII keys. -/
def strLower (s : String) : String := String.mk (s.data.map Char.toLower)

/-- Try to match, at the head of `cs`, the pattern `key` followed by one or
more whitespace characters and an (optionally signed, when `signed`) digit
run, returning the captured integer. Embeds one anchored attempt of the
`re.search` patterns used by `parse_pm`. -/
def matchKeyAt (key : List Char) (signed : Bool) (cs : List Char) : Option ℤ :=
  match dropPref key cs with
  | none => none
  | some r1 =>
    if (r1.takeWhile (fun c => pyIsSpace c)).isEmpty then none
    else
      match r1.drop (r1.takeWhile (fun c => pyIsSpace c)).length with
      | '-' :: r3 =>
        if signed then
          if (r3.takeWhile Char.isDigit).isEmpty then none
          else some (-(digitsToNat (r3.takeWhile Char.isDigit) : ℤ))
        else none
      | r2 =>
        if (r2.takeWhile Char.isDigit).isEmpty then none
        else some ((digitsToNat (r2.takeWhile Char.isDigit) : ℤ))

/-- Left-to-right scan embedding `re.search` for the fixed key patterns. -/
def searchKeyInt (key : List Char) (signed : Bool) : List Char → Option ℤ
  | [] => none
  | c :: rest =>
    match matchKeyAt key signed (c :: rest) with
    | some v => some v
    | none => searchKeyInt key signed rest

/-- Search a text for the pattern `key` + whitespace + integer. -/
def reSearchInt (key : String) (signed : Bool) (text : String) : Option ℤ :=
  searchKeyInt key.data signed text.data

-- ── Association-list embedding of Python dicts ──────────────────────────────

/-- First-match lookup, embedding `k in d` / `d[k]`. -/
def getv {α : Type} : List (String × α) → String → Option α
  | [], _ => none
  | (k, v) :: rest, key => if k = key then some v else getv rest key

/-- Lookup with default, embedding `d.get(k, dflt)`. -/
def getvD {α : Type} (r : List (String × α)) (key : String) (d : α) : α :=
  (getv r key).getD d

/-- Assignment `d[k] = v`: replace the value at the first occurrence of the
key in place, else append (Python dict insertion order). -/
def setv {α : Type} : List (String × α) → String → α → List (String × α)
  | [], key, v => [(key, v)]
  | (k, w) :: rest, key, v =>
    if k = key then (key, v) :: rest else (k, w) :: setv rest key v

/-- A telemetry sample / decoded JSON record: field name to numeric value. -/
abbrev Sample := List (String × ℚ)

-- ── Rounding (Python round(x, 1)) ───────────────────────────────────────────

/-- Round half to even to the nearest integer. -/
def rhe (x : ℚ) : ℤ :=
  if x - ⌊x⌋ < 1/2 then ⌊x⌋
  else if 1/2 < x - ⌊x⌋ then ⌊x⌋ + 1
  else if ⌊x⌋ % 2 = 0 then ⌊x⌋ else ⌊x⌋ + 1

/-- Embedding of Python `round(x, 1)`: round half to even at one decimal. -/
def round1 (x : ℚ) : ℚ := (rhe (10 * x) : ℚ) / 10

-- ── Parsers (src/app/main.py lines 198-239) ─────────────────────────────────

/-- Voltage field names scanned by `parse_pm` (pattern `name: <uint>`). -/
def pmVoltNames : List String := ["core_cur_volt", "cpu_cur_volt", "npu_cur_volt"]

/-- Compensated-temperature field names scanned by `parse_pm` (pattern `name: <int>`). -/
def pmCompNames : List String := ["core_temp_comp", "cpu_temp_comp", "npu_temp_comp"]

/-- Embedding of `parse_pm` (main.py lines 198-212): temperature, voltages
(renamed by dropping `_cur`), compensated temperatures. Total: every
`re.search` either matches or is skipped. -/
def parse_pm (text : String) : List (String × ℤ) :=
  let r1 : List (String × ℤ) :=
    match reSearchInt "cur_temp:" true text with
    | some v => setv [] "temp_c" v
    | none => []
  let r2 := pmVoltNames.foldl (fun acc name =>
    match reSearchInt (name ++ ":") false text with
    | some v => setv acc (pyReplace name "_cur_" "_") v
    | none => acc) r1
  pmCompNames.foldl (fun acc name =>
    match reSearchInt (name ++ ":") true text with
    | some v => setv acc name v
    | none => acc) r2

/-- The success case of `statLine`, given `vals` and the lookup `vals[3]`:
`total = sum(vals[:8]) if len(vals) >= 8 else sum(vals)` and
`idle = vals[3] + (vals[4] if len(vals) > 4 else 0)`; a failed lookup is
the IndexError raised by `vals[3]`. -/
def statFields (vals : List ℤ) : Option ℤ → Except String (List (String × ℤ))
  | none => Except.error "IndexError"
  | some v3 =>
    Except.ok [("cpu_total", if 8 ≤ vals.length then (vals.take 8).sum else vals.sum),
      ("cpu_busy", (if 8 ≤ vals.length then (vals.take 8).sum else vals.sum) -
        (v3 + (if 4 < vals.length then (vals[4]?).getD 0 else 0)))]

/-- The result of `vals = [int(x) for x in parts[1:]]`: a `none` is the
ValueError raised on a non-integer token. -/
def statOfVals : Option (List ℤ) → Except String (List (String × ℤ))
  | none => Except.error "ValueError"
  | some vals => statFields vals (vals[3]?)

/-- Body of `parse_stat` for the matched `cpu ` line (main.py lines 219-223). -/
def statLine (line : String) : Except String (List (String × ℤ)) :=
  statOfVals (List.mapM pyInt? ((pySplit line).drop 1))

/-- The `for line in text.splitlines()` loop of `parse_stat`: the first line
starting with `cpu ` is handed to `statLine`; no such line yields the empty
map. -/
def statLoop : List String → Except String (List (String × ℤ))
  | [] => Except.ok []
  | line :: rest => if strStarts line "cpu " then statLine line else statLoop rest

/-- Embedding of `parse_stat` (main.py lines 215-224). -/
def parse_stat (text : String) : Except String (List (String × ℤ)) :=
  statLoop (pySplitLines text)

/-- The first line of `text` starting with `cpu ` (trailing space), if any. -/
def firstCpuLine? (text : String) : Option String :=
  (pySplitLines text).find? (fun l => strStarts l "cpu ")

/-- The `total` computed by `parse_stat`: sum of the first 8 fields when at
least 8 are present, else sum of all fields. -/
def statTotal (vals : List ℤ) : ℤ :=
  if 8 ≤ vals.length then (vals.take 8).sum else vals.sum

/-- The `idle` computed by `parse_stat`: field 3 plus field 4 when present. -/
def statIdle (vals : List ℤ) : ℤ :=
  (vals[3]?).getD 0 + (if 4 < vals.length then (vals[4]?).getD 0 else 0)

/-- Whitelisted `/proc/meminfo` keys (main.py line 231). -/
def memKeys : List String := ["MemTotal", "MemFree", "MemAvailable", "Buffers", "Cached"]

/-- Embedding of `parse_meminfo` (main.py lines 227-239). Total: the `int`
call is wrapped in `try/except ValueError` in the source, so a malformed
value only skips the field (`pyInt? tok = none` branch). -/
def parse_meminfo (text : String) : List (String × ℤ) :=
  (pySplitLines text).foldl (fun acc line =>
    memKeys.foldl (fun acc2 key =>
      if strStarts line (key ++ ":") then
        match (pySplit line)[1]? with
        | some tok =>
          match pyInt? tok with
          | some v => setv acc2 ("mem_" ++ strLower key ++ "_kb") v
          | none => acc2
        | none => acc2
      else acc2) acc) []

-- ── Derived metrics (main.py lines 316-322, 90-95, 551-574) ─────────────────

/-- Embedding of `compute_cpu_percent` (main.py lines 316-322): missing
counters default to 0 via `.get(k, 0)`; a non-positive total delta yields
`none` (Python `None`). -/
def compute_cpu_percent (prev curr : Sample) : Option ℚ :=
  if getvD curr "cpu_total" 0 - getvD prev "cpu_total" 0 ≤ 0 then none
  else some (round1 (100 * (getvD curr "cpu_busy" 0 - getvD prev "cpu_busy" 0) /
    (getvD curr "cpu_total" 0 - getvD prev "cpu_total" 0)))

/-- The value assigned to `mem_used_percent` by the log re-read paths
(main.py line 571 and line 620): the rounded percentage when the total is
strictly positive, and the explicit integer 0 otherwise. -/
def memVal (t f : ℚ) : ℚ := if 0 < t then round1 (100 * (t - f) / t) else 0

/-- The `mem_used_percent` step of the log re-read paths (`log_data`,
main.py lines 568-571, and identically `live_data`, lines 617-620): when
both `mem_memtotal_kb` and `mem_memfree_kb` are present the field is set
(overwriting any existing value), otherwise the record is unchanged. -/
def memStep (r : Sample) : Sample :=
  match getv r "mem_memtotal_kb" with
  | none => r
  | some t =>
    match getv r "mem_memfree_kb" with
    | none => r
    | some f => setv r "mem_used_percent" (memVal t f)

/-- The `cpu_percent` fill-in step of the log re-read paths (main.py lines
563-566): only when a previous record exists and the field is absent. -/
def cpuStep (prev : Option Sample) (r : Sample) : Sample :=
  match prev with
  | none => r
  | some p =>
    if (getv r "cpu_percent").isSome then r
    else
      match compute_cpu_percent p r with
      | none => r
      | some v => setv r "cpu_percent" v

/-- One record of the log re-read enrichment: cpu fill-in, then mem recompute. -/
def enrichStep (prev : Option Sample) (r : Sample) : Sample :=
  memStep (cpuStep prev r)

/-- The enrichment loop of `log_data` (main.py lines 551-574), carrying the
previous (already enriched) record. -/
def enrichGo : Option Sample → List Sample → List Sample
  | _, [] => []
  | p, r :: rs => enrichStep p r :: enrichGo (some (enrichStep p r)) rs

/-- The full log re-read derivation over an ordered sequence of decoded records. -/
def logEnrich (rs : List Sample) : List Sample := enrichGo none rs

/-- The enrichment performed by `ws_broadcast` (main.py lines 90-95): only
when `mem_used_percent` is not already present; missing total/free default
to 0 via `.get(k, 0)`; nothing is added when the total is not positive. -/
def ws_broadcast_enrich (snap : Sample) : Sample :=
  if (getv snap "mem_used_percent").isSome then snap
  else
    if 0 < getvD snap "mem_memtotal_kb" 0 then
      setv snap "mem_used_percent"
        (round1 (100 * (getvD snap "mem_memtotal_kb" 0 - getvD snap "mem_memfree_kb" 0) /
          getvD snap "mem_memtotal_kb" 0))
    else snap

-- ── Monitor startup ordering (main.py lines 356-367) ────────────────────────

/-- Shared state visible to concurrent status readers during run startup:
the `current_log` field of `monitor_state` and whether the log file has
been opened/created on disk. -/
structure LoopSt where
  currentLog : Option String
  logOpened : Bool
deriving DecidableEq

/-- State at loop startup: `start_monitor` resets `current_log` to `None`
(main.py line 481) and no log file exists yet. -/
def loopInit : LoopSt := LoopSt.mk none false

/-- The two startup actions of `monitor_loop` for a run whose log name is
`n`, in source order: lines 360-362 store the log name into the shared run
state under the lock, and only afterwards does line 367 open (create) the
log file. Readers may run between any two steps. -/
inductive LoopStep (n : String) : LoopSt → LoopSt → Prop where
  | setRunState : LoopStep n (LoopSt.mk none false) (LoopSt.mk (some n) false)
  | openLogFile : LoopStep n (LoopSt.mk (some n) false) (LoopSt.mk (some n) true)

/-- States of the startup segment reachable from `loopInit`; each reachable
state is observable by a concurrent status/live-data reader. -/
def LoopReach (n : String) (s : LoopSt) : Prop :=
  Relation.ReflTransGen (LoopStep n) loopInit s

-- ── Start request handling (main.py lines 460-487) ──────────────────────────

/-- The fields of the global `monitor_state` dict. -/
structure MonitorSt where
  running : Bool
  error : Option String
  samples : ℕ
  startTime : Option String
  lastSample : Option Sample
  currentLog : Option String
deriving DecidableEq

/-- Server-side state touched by `start_monitor`: the monitor state and the
`monitor_stop_event` flag. -/
structure ServerSt where
  monitor : MonitorSt
  stopFlagSet : Bool
deriving DecidableEq

/-- Reply of the `/api/start` route. -/
inductive StartReply where
  | accepted : StartReply
  | rejected : String → StartReply
deriving DecidableEq

/-- Embedding of `start_monitor` (main.py lines 460-487): reject while a run
is active; reject when no telnet password is configured (the empty string is
falsy); otherwise clear the stop event and reset the run state. `now` stands
for `datetime.now().isoformat()`. -/
def start_monitor (password : String) (now : String) (s : ServerSt) : ServerSt × StartReply :=
  if s.monitor.running then (s, StartReply.rejected "Already monitoring")
  else if password = "" then
    (s, StartReply.rejected "Telnet password not configured. Set it in Settings first.")
  else
    (ServerSt.mk (MonitorSt.mk true none 0 (some now) none none) false, StartReply.accepted)

-- ── Helper lemmas: association lists ────────────────────────────────────────

theorem getv_setv_self {α : Type} (r : List (String × α)) (k : String) (v : α) :
    getv (setv r k v) k = some v := by
  induction r with
  | nil => simp [setv, getv]
  | cons hd tl ih =>
    obtain ⟨k', w⟩ := hd
    by_cases h : k' = k
    · simp [setv, h, getv]
    · simp [setv, h, getv, ih]

theorem getv_setv_ne {α : Type} (r : List (String × α)) (k key : String) (v : α)
    (h : k ≠ key) : getv (setv r k v) key = getv r key := by
  induction r with
  | nil => simp [setv, getv, h]
  | cons hd tl ih =>
    obtain ⟨k', w⟩ := hd
    by_cases h' : k' = k
    · simp [setv, h', getv, h]
    · simp [setv, h', getv, ih]

theorem setv_setv_self {α : Type} (r : List (String × α)) (k : String) (v : α) :
    setv (setv r k v) k v = setv r k v := by
  induction r with
  | nil => simp [setv]
  | cons hd tl ih =>
    obtain ⟨k', w⟩ := hd
    by_cases h : k' = k
    · simp [setv, h]
    · simp [setv, h, ih]

-- ── Helper lemmas: memStep / cpuStep / enrichment ───────────────────────────

theorem memStep_total_none (r : Sample) (h : getv r "mem_memtotal_kb" = none) :
    memStep r = r := by
  simp [memStep, h]

theorem memStep_free_none (r : Sample) (h : getv r "mem_memfree_kb" = none) :
    memStep r = r := by
  cases h1 : getv r "mem_memtotal_kb" with
  | none => simp [memStep, h1]
  | some t => simp [memStep, h1, h]

theorem memStep_some_some (r : Sample) (t f : ℚ)
    (h1 : getv r "mem_memtotal_kb" = some t) (h2 : getv r "mem_memfree_kb" = some f) :
    memStep r = setv r "mem_used_percent" (memVal t f) := by
  simp [memStep, h1, h2]

theorem getv_memStep_ne (r : Sample) (key : String) (h : key ≠ "mem_used_percent") :
    getv (memStep r) key = getv r key := by
  cases h1 : getv r "mem_memtotal_kb" with
  | none => rw [memStep_total_none r h1]
  | some t =>
    cases h2 : getv r "mem_memfree_kb" with
    | none => rw [memStep_free_none r h2]
    | some f =>
      rw [memStep_some_some r t f h1 h2]
      exact getv_setv_ne r "mem_used_percent" key _ (Ne.symm h)

theorem memStep_idem (r : Sample) : memStep (memStep r) = memStep r := by
  cases h1 : getv r "mem_memtotal_kb" with
  | none => rw [memStep_total_none r h1, memStep_total_none r h1]
  | some t =>
    cases h2 : getv r "mem_memfree_kb" with
    | none => rw [memStep_free_none r h2, memStep_free_none r h2]
    | some f =>
      rw [memStep_some_some r t f h1 h2]
      have g1 : getv (setv r "mem_used_percent" (memVal t f)) "mem_memtotal_kb" = some t := by
        rw [getv_setv_ne r _ _ _ (by decide)]; exact h1
      have g2 : getv (setv r "mem_used_percent" (memVal t f)) "mem_memfree_kb" = some f := by
        rw [getv_setv_ne r _ _ _ (by decide)]; exact h2
      rw [memStep_some_some _ t f g1 g2]
      exact setv_setv_self r "mem_used_percent" (memVal t f)

theorem cpuStep_none (r : Sample) : cpuStep none r = r := rfl

theorem cpuStep_of_isSome (q : Sample) (r : Sample)
    (h : (getv r "cpu_percent").isSome = true) : cpuStep (some q) r = r := by
  simp [cpuStep, h]

theorem cpuStep_of_compute_none (q : Sample) (r : Sample)
    (h : ¬ (getv r "cpu_percent").isSome = true) (hc : compute_cpu_percent q r = none) :
    cpuStep (some q) r = r := by
  simp [cpuStep, h, hc]

theorem cpuStep_of_compute_some (q : Sample) (r : Sample) (v : ℚ)
    (h : ¬ (getv r "cpu_percent").isSome = true) (hc : compute_cpu_percent q r = some v) :
    cpuStep (some q) r = setv r "cpu_percent" v := by
  simp [cpuStep, h, hc]

theorem compute_getv_congr (p c c' : Sample)
    (h1 : getv c' "cpu_total" = getv c "cpu_total")
    (h2 : getv c' "cpu_busy" = getv c "cpu_busy") :
    compute_cpu_percent p c' = compute_cpu_percent p c := by
  unfold compute_cpu_percent getvD
  rw [h1, h2]

theorem enrichStep_fix (p : Option Sample) (r : Sample) :
    enrichStep p (enrichStep p r) = enrichStep p r := by
  cases p with
  | none =>
    simp only [enrichStep, cpuStep_none]
    exact memStep_idem r
  | some q =>
    by_cases hs : (getv r "cpu_percent").isSome = true
    · rw [show enrichStep (some q) r = memStep r by
        simp only [enrichStep, cpuStep_of_isSome q r hs]]
      have hs2 : (getv (memStep r) "cpu_percent").isSome = true := by
        rw [getv_memStep_ne r _ (by decide)]; exact hs
      simp only [enrichStep, cpuStep_of_isSome q _ hs2]
      exact memStep_idem r
    · cases hc : compute_cpu_percent q r with
      | none =>
        rw [show enrichStep (some q) r = memStep r by
          simp only [enrichStep, cpuStep_of_compute_none q r hs hc]]
        have hg : getv (memStep r) "cpu_percent" = getv r "cpu_percent" :=
          getv_memStep_ne r _ (by decide)
        have hs2 : ¬ (getv (memStep r) "cpu_percent").isSome = true := by
          rw [hg]; exact hs
        have hc2 : compute_cpu_percent q (memStep r) = none := by
          rw [compute_getv_congr q r (memStep r) (getv_memStep_ne r _ (by decide))
            (getv_memStep_ne r _ (by decide))]
          exact hc
        simp only [enrichStep, cpuStep_of_compute_none q _ hs2 hc2]
        exact memStep_idem r
      | some v =>
        rw [show enrichStep (some q) r = memStep (setv r "cpu_percent" v) by
          simp only [enrichStep, cpuStep_of_compute_some q r v hs hc]]
        have hg : getv (memStep (setv r "cpu_percent" v)) "cpu_percent" = some v := by
          rw [getv_memStep_ne _ _ (by decide)]
          exact getv_setv_self r "cpu_percent" v
        have hs2 : (getv (memStep (setv r "cpu_percent" v)) "cpu_percent").isSome = true := by
          rw [hg]; rfl
        simp only [enrichStep, cpuStep_of_isSome q _ hs2]
        exact memStep_idem _

theorem enrichGo_idem (rs : List Sample) :
    ∀ p : Option Sample, enrichGo p (enrichGo p rs) = enrichGo p rs := by
  induction rs with
  | nil => intro p; rfl
  | cons r rest ih =>
    intro p
    simp only [enrichGo]
    rw [enrichStep_fix]
    rw [ih (some (enrichStep p r))]

-- ── Helper lemmas: rounding ─────────────────────────────────────────────────

theorem rhe_intCast (m : ℤ) : rhe ((m : ℤ) : ℚ) = m := by
  unfold rhe
  rw [Int.floor_intCast]
  norm_num

theorem round1_intCast (k : ℤ) : round1 ((k : ℤ) : ℚ) = (k : ℚ) := by
  unfold round1
  have h : (10 : ℚ) * (k : ℚ) = ((10 * k : ℤ) : ℚ) := by push_cast; ring
  rw [h, rhe_intCast]
  push_cast
  ring

theorem rhe_nonneg {x : ℚ} (hx : 0 ≤ x) : 0 ≤ rhe x := by
  unfold rhe
  have hf : (0 : ℤ) ≤ ⌊x⌋ := Int.floor_nonneg.mpr hx
  split_ifs <;> omega

theorem rhe_le_intCast {x : ℚ} {B : ℤ} (hx : x ≤ (B : ℚ)) : rhe x ≤ B := by
  unfold rhe
  have hfB : ⌊x⌋ ≤ B := by
    have h := Int.floor_le_floor hx
    rwa [Int.floor_intCast] at h
  have hfl : (⌊x⌋ : ℚ) ≤ x := Int.floor_le x
  split_ifs with h1 h2 h3
  · exact hfB
  · by_contra hcon
    push_neg at hcon
    have hBf : B = ⌊x⌋ := by omega
    rw [hBf] at hx
    push_neg at h1
    linarith
  · exact hfB
  · by_contra hcon
    push_neg at hcon
    have hBf : B = ⌊x⌋ := by omega
    rw [hBf] at hx
    push_neg at h1
    linarith

theorem round1_nonneg {x : ℚ} (hx : 0 ≤ x) : 0 ≤ round1 x := by
  unfold round1
  have h := rhe_nonneg (by linarith : (0 : ℚ) ≤ 10 * x)
  have h2 : (0 : ℚ) ≤ ((rhe (10 * x) : ℤ) : ℚ) := by exact_mod_cast h
  positivity

theorem round1_le_100 {x : ℚ} (hx : x ≤ 100) : round1 x ≤ 100 := by
  unfold round1
  have h : rhe (10 * x) ≤ 1000 := rhe_le_intCast (by push_cast; linarith)
  rw [div_le_iff₀ (by norm_num : (0 : ℚ) < 10)]
  have h2 : ((rhe (10 * x) : ℤ) : ℚ) ≤ (1000 : ℚ) := by exact_mod_cast h
  linarith

-- ── Helper lemmas: parse_stat structure ─────────────────────────────────────

/-- A result of `parse_stat` is a success (no exception was raised). -/
def exceptIsOk {ε α : Type} : Except ε α → Bool
  | Except.ok _ => true
  | Except.error _ => false

theorem statLoop_eq_find (ls : List String) :
    statLoop ls = (match ls.find? (fun l => strStarts l "cpu ") with
      | some l => statLine l
      | none => Except.ok []) := by
  induction ls with
  | nil => rfl
  | cons l rest ih =>
    by_cases h : strStarts l "cpu " = true
    · simp [statLoop, List.find?_cons_of_pos, h]
    · simp [statLoop, List.find?_cons_of_neg, h, ih]

theorem parse_stat_eq_first (text : String) :
    parse_stat text = (match firstCpuLine? text with
      | some l => statLine l
      | none => Except.ok []) := by
  unfold parse_stat firstCpuLine?
  exact statLoop_eq_find (pySplitLines text)

theorem statLine_ok (line : String) (vals : List ℤ)
    (hm : List.mapM pyInt? ((pySplit line).drop 1) = some vals) (h4 : 4 ≤ vals.length) :
    statLine line =
      Except.ok [("cpu_total", statTotal vals), ("cpu_busy", statTotal vals - statIdle vals)] := by
  obtain ⟨v3, hv3⟩ : ∃ v, vals[3]? = some v := by
    cases hv : vals[3]? with
    | none => exact absurd (List.getElem?_eq_none_iff.mp hv) (by omega)
    | some v => exact ⟨v, rfl⟩
  unfold statLine
  rw [hm]
  simp only [statOfVals]
  rw [hv3]
  unfold statFields statTotal statIdle
  rw [hv3]
  simp

theorem statLine_valueerror (line : String)
    (hm : List.mapM pyInt? ((pySplit line).drop 1) = none) :
    statLine line = Except.error "ValueError" := by
  unfold statLine
  rw [hm]
  rfl

theorem statLine_indexerror (line : String) (vals : List ℤ)
    (hm : List.mapM pyInt? ((pySplit line).drop 1) = some vals) (h4 : vals.length < 4) :
    statLine line = Except.error "IndexError" := by
  unfold statLine
  rw [hm]
  simp only [statOfVals]
  have h3 : vals[3]? = none := List.getElem?_eq_none (by omega)
  rw [h3]
  rfl

-- ── Helper lemmas: mem_used_percent paths ───────────────────────────────────

theorem ws_enrich_nonpos (s : Sample) (h : getvD s "mem_memtotal_kb" 0 ≤ 0) :
    ws_broadcast_enrich s = s := by
  by_cases hs : (getv s "mem_used_percent").isSome = true
  · simp [ws_broadcast_enrich, hs]
  · simp [ws_broadcast_enrich, hs, not_lt.mpr h]

theorem ws_enrich_pos (s : Sample)
    (h0 : getv s "mem_used_percent" = none) (hpos : 0 < getvD s "mem_memtotal_kb" 0) :
    getv (ws_broadcast_enrich s) "mem_used_percent" =
      some (round1 (100 * (getvD s "mem_memtotal_kb" 0 - getvD s "mem_memfree_kb" 0) /
        getvD s "mem_memtotal_kb" 0)) := by
  simp [ws_broadcast_enrich, h0, hpos, getv_setv_self]

theorem memStep_zero_of_nonpos (r : Sample) (t f : ℚ)
    (h1 : getv r "mem_memtotal_kb" = some t) (h2 : getv r "mem_memfree_kb" = some f)
    (ht : t ≤ 0) : getv (memStep r) "mem_used_percent" = some 0 := by
  rw [memStep_some_some r t f h1 h2, getv_setv_self]
  unfold memVal
  rw [if_neg (not_lt.mpr ht)]

theorem memStep_round_of_pos (r : Sample) (t f : ℚ)
    (h1 : getv r "mem_memtotal_kb" = some t) (h2 : getv r "mem_memfree_kb" = some f)
    (ht : 0 < t) :
    getv (memStep r) "mem_used_percent" = some (round1 (100 * (t - f) / t)) := by
  rw [memStep_some_some r t f h1 h2, getv_setv_self]
  unfold memVal
  rw [if_pos ht]

-- ── Claim theorems ──────────────────────────────────────────────────────────

/-- C1: for samples carrying both counters, `compute_cpu_percent` returns
`round(100 * (curr.cpu_busy - prev.cpu_busy) / (curr.cpu_total - prev.cpu_total), 1)`
when the total delta is strictly positive and `none` (absent, not zero, not
an error) otherwise. -/
theorem compute_cpu_percent_formula (p c : Sample) (a b a' b' : ℚ)
    (hpt : getv p "cpu_total" = some a) (hpb : getv p "cpu_busy" = some b)
    (hct : getv c "cpu_total" = some a') (hcb : getv c "cpu_busy" = some b') :
    (0 < a' - a → compute_cpu_percent p c = some (round1 (100 * (b' - b) / (a' - a)))) ∧
    (a' - a ≤ 0 → compute_cpu_percent p c = none) := by
  unfold compute_cpu_percent getvD
  rw [hpt, hpb, hct, hcb]
  simp only [Option.getD_some]
  constructor
  · intro h
    rw [if_neg (by linarith)]
  · intro h
    rw [if_pos h]

/-- Witness for C1 at the spec's worked example: samples (970, 150) then
(1070, 165) give 15.0, and the reversed pair (non-positive delta) is absent. -/
theorem compute_cpu_percent_formula_witness :
    compute_cpu_percent [("cpu_total", (970 : ℚ)), ("cpu_busy", 150)]
      [("cpu_total", 1070), ("cpu_busy", 165)] = some 15 ∧
    compute_cpu_percent [("cpu_total", (1070 : ℚ)), ("cpu_busy", 165)]
      [("cpu_total", 970), ("cpu_busy", 150)] = none := by
  have h := compute_cpu_percent_formula [("cpu_total", (970 : ℚ)), ("cpu_busy", 150)]
    [("cpu_total", 1070), ("cpu_busy", 165)] 970 150 1070 165 rfl rfl rfl rfl
  have h2 := compute_cpu_percent_formula [("cpu_total", (1070 : ℚ)), ("cpu_busy", 165)]
    [("cpu_total", 970), ("cpu_busy", 150)] 1070 165 970 150 rfl rfl rfl rfl
  constructor
  · rw [h.1 (by norm_num)]
    have e : (100 : ℚ) * (165 - 150) / (1070 - 970) = ((15 : ℤ) : ℚ) := by norm_num
    rw [e, round1_intCast]
    norm_num
  · exact h2.2 (by norm_num)

/-- C2: the two derivation paths are asymmetric on a non-positive memory
total: the live/broadcast enrichment adds nothing whenever the total
(defaulting to 0 when absent) is not strictly positive, while the log
re-read step, with both fields present, sets `mem_used_percent` to exactly
0 when the total is not strictly positive. -/
theorem mem_percent_asymmetry :
    (∀ s : Sample, getvD s "mem_memtotal_kb" 0 ≤ 0 → ws_broadcast_enrich s = s) ∧
    (∀ (r : Sample) (t f : ℚ), getv r "mem_memtotal_kb" = some t →
      getv r "mem_memfree_kb" = some f → t ≤ 0 →
      getv (memStep r) "mem_used_percent" = some 0) := by
  constructor
  · intro s h
    exact ws_enrich_nonpos s h
  · intro r t f h1 h2 ht
    exact memStep_zero_of_nonpos r t f h1 h2 ht

/-- Witness for C2: a negative live total adds nothing; a zero total with
both fields present yields the explicit 0 on the log path. -/
theorem mem_percent_asymmetry_witness :
    ws_broadcast_enrich [("mem_memtotal_kb", (-5 : ℚ))] = [("mem_memtotal_kb", (-5 : ℚ))] ∧
    getv (memStep [("mem_memtotal_kb", (0 : ℚ)), ("mem_memfree_kb", 0)]) "mem_used_percent" =
      some 0 := by
  constructor
  · apply mem_percent_asymmetry.1
    have e : getvD ([("mem_memtotal_kb", (-5 : ℚ))] : Sample) "mem_memtotal_kb" 0 = -5 := rfl
    rw [e]
    norm_num
  · exact mem_percent_asymmetry.2 [("mem_memtotal_kb", (0 : ℚ)), ("mem_memfree_kb", 0)] 0 0
      rfl rfl le_rfl

/-- C3 counterexample: after the first startup step of `monitor_loop`
(lines 360-362 store the log name in the shared run state) and before the
second (line 367 opens the file), a reachable, reader-observable state
names a log that has not been opened/created yet — the claimed ordering
"open before altering shared run state" is the reverse of the code's. -/
theorem current_log_before_open_cx :
    LoopReach "radcam_20250101_000000.ndjson"
      (LoopSt.mk (some "radcam_20250101_000000.ndjson") false) ∧
    (LoopSt.mk (some "radcam_20250101_000000.ndjson") false).currentLog =
      some "radcam_20250101_000000.ndjson" ∧
    (LoopSt.mk (some "radcam_20250101_000000.ndjson") false).logOpened = false :=
  ⟨Relation.ReflTransGen.single LoopStep.setRunState, rfl, rfl⟩

/-- C3 amended: the loop stores the log name in shared run state before
opening the file, so in every reachable startup state an opened log is
already named by `current_log` (the converse of the claimed ordering). -/
theorem log_open_implies_current_log (n : String) (s : LoopSt) (h : LoopReach n s) :
    s.logOpened = true → s.currentLog = some n := by
  induction h with
  | refl =>
    intro hopen
    simp [loopInit] at hopen
  | tail hab step ih =>
    intro hopen
    cases step with
    | setRunState => simp at hopen
    | openLogFile => rfl

/-- Witness for the amended C3 at the fully started state. -/
theorem log_open_implies_current_log_witness :
    (LoopSt.mk (some "radcam_20250101_000001.ndjson") true).currentLog =
      some "radcam_20250101_000001.ndjson" :=
  log_open_implies_current_log "radcam_20250101_000001.ndjson" _
    (Relation.ReflTransGen.tail (Relation.ReflTransGen.single LoopStep.setRunState)
      LoopStep.openLogFile) rfl

/-- C4 counterexample: `parse_stat` is not total — on the input `"cpu x"`
the comprehension `[int(x) for x in parts[1:]]` raises ValueError instead
of skipping the malformed line. -/
theorem extractor_totality_cx : parse_stat "cpu x" = Except.error "ValueError" := rfl

/-- C4 amended: `parse_pm` and `parse_meminfo` are total (their embeddings
return plain field maps for every input), but `parse_stat` raises on a
malformed first `cpu ` line: it succeeds when there is no such line, or
when that line splits into at least 4 integer tokens; it raises ValueError
on a non-integer token and IndexError on fewer than 4 fields. -/
theorem parse_stat_totality_characterization :
    (∀ text, firstCpuLine? text = none → exceptIsOk (parse_stat text) = true) ∧
    (∀ text line vals, firstCpuLine? text = some line →
      List.mapM pyInt? ((pySplit line).drop 1) = some vals → 4 ≤ vals.length →
      exceptIsOk (parse_stat text) = true) ∧
    (∀ text line, firstCpuLine? text = some line →
      List.mapM pyInt? ((pySplit line).drop 1) = none →
      parse_stat text = Except.error "ValueError") ∧
    (∀ text line vals, firstCpuLine? text = some line →
      List.mapM pyInt? ((pySplit line).drop 1) = some vals → vals.length < 4 →
      parse_stat text = Except.error "IndexError") := by
  refine ⟨?_, ?_, ?_, ?_⟩
  · intro text h
    rw [parse_stat_eq_first, h]
    rfl
  · intro text line vals h hm h4
    rw [parse_stat_eq_first, h]
    show exceptIsOk (statLine line) = true
    rw [statLine_ok line vals hm h4]
    rfl
  · intro text line h hm
    rw [parse_stat_eq_first, h]
    show statLine line = Except.error "ValueError"
    exact statLine_valueerror line hm
  · intro text line vals h hm h4
    rw [parse_stat_eq_first, h]
    show statLine line = Except.error "IndexError"
    exact statLine_indexerror line vals hm h4

/-- Witness for the amended C4: a `cpu ` line with only two fields raises
IndexError. -/
theorem parse_stat_totality_characterization_witness :
    parse_stat "cpu 1 2" = Except.error "IndexError" :=
  parse_stat_totality_characterization.2.2.2 "cpu 1 2" "cpu 1 2" [1, 2] rfl rfl
    (by norm_num)

/-- C5 counterexample: for an arbitrary pair of samples with strictly
increasing `cpu_total`, the result can leave `[0, 100]`: a busy delta of
20 against a total delta of 10 yields 200.0. -/
theorem cpu_percent_range_cx :
    getv ([("cpu_total", (0 : ℚ)), ("cpu_busy", 0)] : Sample) "cpu_total" = some 0 ∧
    getv ([("cpu_total", (10 : ℚ)), ("cpu_busy", 20)] : Sample) "cpu_total" = some 10 ∧
    (0 : ℚ) < 10 ∧
    compute_cpu_percent [("cpu_total", (0 : ℚ)), ("cpu_busy", 0)]
      [("cpu_total", 10), ("cpu_busy", 20)] = some 200 ∧
    ¬ ((200 : ℚ) ≤ 100) := by
  refine ⟨rfl, rfl, by norm_num, ?_, by norm_num⟩
  have e1 : getvD ([("cpu_total", (0 : ℚ)), ("cpu_busy", 0)] : Sample) "cpu_total" 0 = 0 := rfl
  have e2 : getvD ([("cpu_total", (0 : ℚ)), ("cpu_busy", 0)] : Sample) "cpu_busy" 0 = 0 := rfl
  have e3 : getvD ([("cpu_total", (10 : ℚ)), ("cpu_busy", 20)] : Sample) "cpu_total" 0 = 10 := rfl
  have e4 : getvD ([("cpu_total", (10 : ℚ)), ("cpu_busy", 20)] : Sample) "cpu_busy" 0 = 20 := rfl
  simp only [compute_cpu_percent, e1, e2, e3, e4]
  rw [if_neg (by norm_num)]
  have e : (100 : ℚ) * (20 - 0) / (10 - 0) = ((200 : ℤ) : ℚ) := by norm_num
  rw [e, round1_intCast]
  norm_num

/-- C5 amended: when both counters are present in both samples, the total
strictly increased, and the busy delta is between 0 and the total delta
(as holds for counters read from the same device's `/proc/stat`), the
result is a one-decimal value in `[0, 100]`; a non-increasing total yields
absent. -/
theorem cpu_percent_range_amended (p c : Sample) (a b a' b' : ℚ)
    (hpt : getv p "cpu_total" = some a) (hpb : getv p "cpu_busy" = some b)
    (hct : getv c "cpu_total" = some a') (hcb : getv c "cpu_busy" = some b') :
    (a < a' → b ≤ b' → b' - b ≤ a' - a →
      ∃ v, compute_cpu_percent p c = some v ∧ 0 ≤ v ∧ v ≤ 100 ∧
        ∃ k : ℤ, v = (k : ℚ) / 10) ∧
    (a' ≤ a → compute_cpu_percent p c = none) := by
  unfold compute_cpu_percent getvD
  rw [hpt, hpb, hct, hcb]
  simp only [Option.getD_some]
  constructor
  · intro h1 h2 h3
    rw [if_neg (by linarith)]
    refine ⟨round1 (100 * (b' - b) / (a' - a)), rfl, ?_, ?_,
      ⟨rhe (10 * (100 * (b' - b) / (a' - a))), rfl⟩⟩
    · apply round1_nonneg
      apply div_nonneg (by linarith) (by linarith)
    · apply round1_le_100
      rw [div_le_iff₀ (by linarith : (0 : ℚ) < a' - a)]
      linarith
  · intro h
    rw [if_pos (by linarith)]

/-- Witness for the amended C5: deltas 50 busy over 200 total give 25.0,
inside the range. -/
theorem cpu_percent_range_amended_witness :
    compute_cpu_percent [("cpu_total", (1000 : ℚ)), ("cpu_busy", 400)]
      [("cpu_total", 1200), ("cpu_busy", 450)] = some 25 ∧
    (0 : ℚ) ≤ 25 ∧ (25 : ℚ) ≤ 100 := by
  obtain ⟨v, hv, h0, h100, -⟩ :=
    (cpu_percent_range_amended [("cpu_total", (1000 : ℚ)), ("cpu_busy", 400)]
      [("cpu_total", 1200), ("cpu_busy", 450)] 1000 400 1200 450 rfl rfl rfl rfl).1
      (by norm_num) (by norm_num) (by norm_num)
  have hval : compute_cpu_percent [("cpu_total", (1000 : ℚ)), ("cpu_busy", 400)]
      [("cpu_total", 1200), ("cpu_busy", 450)] = some 25 := by
    have e1 : getvD ([("cpu_total", (1000 : ℚ)), ("cpu_busy", 400)] : Sample) "cpu_total" 0 = 1000 := rfl
    have e2 : getvD ([("cpu_total", (1000 : ℚ)), ("cpu_busy", 400)] : Sample) "cpu_busy" 0 = 400 := rfl
    have e3 : getvD ([("cpu_total", (1200 : ℚ)), ("cpu_busy", 450)] : Sample) "cpu_total" 0 = 1200 := rfl
    have e4 : getvD ([("cpu_total", (1200 : ℚ)), ("cpu_busy", 450)] : Sample) "cpu_busy" 0 = 450 := rfl
    simp only [compute_cpu_percent, e1, e2, e3, e4]
    rw [if_neg (by norm_num)]
    have e : (100 : ℚ) * (450 - 400) / (1200 - 1000) = ((25 : ℤ) : ℚ) := by norm_num
    rw [e, round1_intCast]
    norm_num
  exact ⟨hval, by norm_num, by norm_num⟩

/-- C6 counterexample: on `"cpu 1 2 3"` (a `cpu ` line with only three
fields) `parse_stat` does not emit a field map at all — `vals[3]` raises
IndexError — so the universally quantified description fails. -/
theorem parse_stat_formula_cx : parse_stat "cpu 1 2 3" = Except.error "IndexError" := rfl

/-- C6 amended: when no `cpu ` line exists `parse_stat` emits the empty
map; when the first `cpu ` line splits into at least 4 integer fields it
emits `cpu_total = total` and `cpu_busy = total - idle` with
`total = sum of first 8 fields if at least 8 else sum of all` and
`idle = field 3 + field 4 if present`; on a malformed `cpu ` line it
raises instead. The spec's worked example holds. -/
theorem parse_stat_formula_amended :
    (∀ text, firstCpuLine? text = none → parse_stat text = Except.ok []) ∧
    (∀ text line vals, firstCpuLine? text = some line →
      List.mapM pyInt? ((pySplit line).drop 1) = some vals → 4 ≤ vals.length →
      parse_stat text = Except.ok
        [("cpu_total", statTotal vals), ("cpu_busy", statTotal vals - statIdle vals)]) ∧
    parse_stat "cpu  100 0 50 800 20 0 0 0" =
      Except.ok [("cpu_total", 970), ("cpu_busy", 150)] := by
  refine ⟨?_, ?_, rfl⟩
  · intro text h
    rw [parse_stat_eq_first, h]
  · intro text line vals h hm h4
    rw [parse_stat_eq_first, h]
    show statLine line = _
    exact statLine_ok line vals hm h4

/-- Witness for the amended C6 on a five-field cpu line: total is the sum
of all five fields, idle is field 3 plus field 4. -/
theorem parse_stat_formula_amended_witness :
    parse_stat "cpu 5 6 7 8 9\nmem" = Except.ok [("cpu_total", 35), ("cpu_busy", 18)] := by
  have h := parse_stat_formula_amended.2.1 "cpu 5 6 7 8 9\nmem" "cpu 5 6 7 8 9"
    [5, 6, 7, 8, 9] rfl rfl (by norm_num)
  rw [h]
  rfl

/-- C7 counterexample: the live/broadcast path computes `mem_used_percent`
even when `mem_memfree_kb` is absent (the missing free value defaults to
0, reporting 100% used), contradicting "when either field is absent,
mem_used_percent is not added" for every derivation path. -/
theorem mem_used_percent_paths_cx :
    getv ([("mem_memtotal_kb", (1000 : ℚ))] : Sample) "mem_memfree_kb" = none ∧
    getv (ws_broadcast_enrich [("mem_memtotal_kb", (1000 : ℚ))]) "mem_used_percent" =
      some 100 := by
  refine ⟨rfl, ?_⟩
  have h := ws_enrich_pos [("mem_memtotal_kb", (1000 : ℚ))] rfl
    (by rw [show getvD ([("mem_memtotal_kb", (1000 : ℚ))] : Sample) "mem_memtotal_kb" 0 = 1000
      from rfl]; norm_num)
  rw [h]
  rw [show getvD ([("mem_memtotal_kb", (1000 : ℚ))] : Sample) "mem_memtotal_kb" 0 = 1000 from rfl]
  rw [show getvD ([("mem_memtotal_kb", (1000 : ℚ))] : Sample) "mem_memfree_kb" 0 = 0 from rfl]
  have e : (100 : ℚ) * (1000 - 0) / 1000 = ((100 : ℤ) : ℚ) := by norm_num
  rw [e, round1_intCast]
  norm_num

/-- C7 amended: the log re-read step computes `mem_used_percent` only when
both fields are present (rounded formula for a positive total, else 0),
but the live/broadcast path computes it whenever the field is not already
present and the total (defaulting to 0) is positive, with the missing free
value read as 0; a non-positive (or absent) total adds nothing. -/
theorem mem_used_percent_paths_amended :
    (∀ r : Sample, getv r "mem_memtotal_kb" = none ∨ getv r "mem_memfree_kb" = none →
      memStep r = r) ∧
    (∀ (r : Sample) (t f : ℚ), getv r "mem_memtotal_kb" = some t →
      getv r "mem_memfree_kb" = some f → 0 < t →
      getv (memStep r) "mem_used_percent" = some (round1 (100 * (t - f) / t))) ∧
    (∀ s : Sample, getv s "mem_used_percent" = none → 0 < getvD s "mem_memtotal_kb" 0 →
      getv (ws_broadcast_enrich s) "mem_used_percent" =
        some (round1 (100 * (getvD s "mem_memtotal_kb" 0 - getvD s "mem_memfree_kb" 0) /
          getvD s "mem_memtotal_kb" 0))) ∧
    (∀ s : Sample, getvD s "mem_memtotal_kb" 0 ≤ 0 → ws_broadcast_enrich s = s) := by
  refine ⟨?_, ?_, ?_, ?_⟩
  · intro r h
    rcases h with h | h
    · exact memStep_total_none r h
    · exact memStep_free_none r h
  · intro r t f h1 h2 ht
    exact memStep_round_of_pos r t f h1 h2 ht
  · intro s h0 hpos
    exact ws_enrich_pos s h0 hpos
  · intro s h
    exact ws_enrich_nonpos s h

/-- Witness for the amended C7: both fields present with a positive total
give 75.0 on the log path, and an absent free field on the live path gives
the (total - 0) percentage. -/
theorem mem_used_percent_paths_amended_witness :
    getv (memStep [("mem_memtotal_kb", (1000000 : ℚ)), ("mem_memfree_kb", 250000)])
      "mem_used_percent" = some 75 ∧
    getv (ws_broadcast_enrich [("mem_memtotal_kb", (2000 : ℚ))]) "mem_used_percent" =
      some 100 := by
  constructor
  · have h := mem_used_percent_paths_amended.2.1
      [("mem_memtotal_kb", (1000000 : ℚ)), ("mem_memfree_kb", 250000)] 1000000 250000
      rfl rfl (by norm_num)
    rw [h]
    have e : (100 : ℚ) * (1000000 - 250000) / 1000000 = ((75 : ℤ) : ℚ) := by norm_num
    rw [e, round1_intCast]
    norm_num
  · have h := mem_used_percent_paths_amended.2.2.1 [("mem_memtotal_kb", (2000 : ℚ))] rfl
      (by rw [show getvD ([("mem_memtotal_kb", (2000 : ℚ))] : Sample) "mem_memtotal_kb" 0 = 2000
        from rfl]; norm_num)
    rw [h]
    rw [show getvD ([("mem_memtotal_kb", (2000 : ℚ))] : Sample) "mem_memtotal_kb" 0 = 2000 from rfl]
    rw [show getvD ([("mem_memtotal_kb", (2000 : ℚ))] : Sample) "mem_memfree_kb" 0 = 0 from rfl]
    have e : (100 : ℚ) * (2000 - 0) / 2000 = ((100 : ℤ) : ℚ) := by norm_num
    rw [e, round1_intCast]
    norm_num

/-- C8: the log re-read derivation (fill in `cpu_percent` between
consecutive records lacking it, recompute `mem_used_percent` when both
fields are present) is idempotent on every ordered sequence of decoded
records. -/
theorem log_enrich_idempotent (rs : List Sample) :
    logEnrich (logEnrich rs) = logEnrich rs := by
  unfold logEnrich
  exact enrichGo_idem rs none

/-- C9: a start request issued while a run is active, or while no telnet
password is configured, is rejected synchronously and leaves the server
state (all monitor_state fields and the stop event) unchanged. -/
theorem start_rejected_no_mutation (password now : String) (s : ServerSt)
    (h : s.monitor.running = true ∨ password = "") :
    (start_monitor password now s).1 = s ∧
    (start_monitor password now s).2 ≠ StartReply.accepted := by
  rcases h with h | h
  · simp [start_monitor, h]
  · by_cases hr : s.monitor.running = true
    · simp [start_monitor, hr]
    · simp [start_monitor, hr, h]

/-- Witness for C9: a second start against a running state leaves the run
(5 samples, an active log) untouched. -/
theorem start_rejected_no_mutation_witness :
    (start_monitor "pw" "2025-01-01T00:00:00"
      (ServerSt.mk (MonitorSt.mk true none 5 (some "t0") none (some "radcam_a.ndjson")) false)).1 =
      ServerSt.mk (MonitorSt.mk true none 5 (some "t0") none (some "radcam_a.ndjson")) false :=
  (start_rejected_no_mutation "pw" "2025-01-01T00:00:00"
    (ServerSt.mk (MonitorSt.mk true none 5 (some "t0") none (some "radcam_a.ndjson")) false)
    (Or.inl rfl)).1

/-- C10: `compute_cpu_percent` reads a missing counter as 0 via
`.get(k, 0)`: the result is absent exactly when the defaulted total delta
is non-positive, the returned percentage uses the defaulted busy delta,
and with `cpu_busy` absent from the current sample the result can be
negative (-50.0 here), outside `[0, 100]`. -/
theorem compute_cpu_percent_defaults :
    (∀ p c : Sample, compute_cpu_percent p c = none ↔
      getvD c "cpu_total" 0 - getvD p "cpu_total" 0 ≤ 0) ∧
    (∀ p c : Sample, 0 < getvD c "cpu_total" 0 - getvD p "cpu_total" 0 →
      compute_cpu_percent p c = some (round1 (100 *
        (getvD c "cpu_busy" 0 - getvD p "cpu_busy" 0) /
        (getvD c "cpu_total" 0 - getvD p "cpu_total" 0)))) ∧
    (getv ([("cpu_total", (100 : ℚ))] : Sample) "cpu_busy" = none ∧
      compute_cpu_percent [("cpu_total", (0 : ℚ)), ("cpu_busy", 50)]
        [("cpu_total", 100)] = some (-50) ∧ (-50 : ℚ) < 0) := by
  refine ⟨?_, ?_, rfl, ?_, by norm_num⟩
  · intro p c
    unfold compute_cpu_percent
    split_ifs with h
    · simp [h]
    · simp [h]
  · intro p c h
    unfold compute_cpu_percent
    rw [if_neg (not_le.mpr h)]
  · have e1 : getvD ([("cpu_total", (0 : ℚ)), ("cpu_busy", 50)] : Sample) "cpu_total" 0 = 0 := rfl
    have e2 : getvD ([("cpu_total", (0 : ℚ)), ("cpu_busy", 50)] : Sample) "cpu_busy" 0 = 50 := rfl
    have e3 : getvD ([("cpu_total", (100 : ℚ))] : Sample) "cpu_total" 0 = 100 := rfl
    have e4 : getvD ([("cpu_total", (100 : ℚ))] : Sample) "cpu_busy" 0 = 0 := rfl
    simp only [compute_cpu_percent, e1, e2, e3, e4]
    rw [if_neg (by norm_num)]
    have e : (100 : ℚ) * (0 - 50) / (100 - 0) = ((-50 : ℤ) : ℚ) := by norm_num
    rw [e, round1_intCast]
    norm_num

/-- Witness for C10 applying the positive-delta formula at a pair whose
previous sample lacks `cpu_busy`. -/
theorem compute_cpu_percent_defaults_witness :
    compute_cpu_percent [("cpu_total", (0 : ℚ))]
      [("cpu_total", 100), ("cpu_busy", 70)] = some 70 := by
  have e1 : getvD ([("cpu_total", (100 : ℚ)), ("cpu_busy", 70)] : Sample) "cpu_total" 0 = 100 := rfl
  have e2 : getvD ([("cpu_total", (0 : ℚ))] : Sample) "cpu_total" 0 = 0 := rfl
  have e3 : getvD ([("cpu_total", (100 : ℚ)), ("cpu_busy", 70)] : Sample) "cpu_busy" 0 = 70 := rfl
  have e4 : getvD ([("cpu_total", (0 : ℚ))] : Sample) "cpu_busy" 0 = 0 := rfl
  have h := compute_cpu_percent_defaults.2.1 [("cpu_total", (0 : ℚ))]
    [("cpu_total", 100), ("cpu_busy", 70)] (by rw [e1, e2]; norm_num)
  rw [e1, e2, e3, e4] at h
  rw [h]
  have e : (100 : ℚ) * (70 - 0) / (100 - 0) = ((70 : ℤ) : ℚ) := by norm_num
  rw [e, round1_intCast]
  norm_num
